import Mathlib

/-!
A shallow embedding of the task-scheduler core of this repository:
`tasks.py` (the data-layer lifecycle operations and the EDF scheduler),
`data_handler.py` (`next_id`, `parse_date`, the `%Y-%m-%d %H:%M` format)
and `reminder_system.py` (`check_reminders`).

Python `datetime` values at the minute precision produced by parsing with
`DATE_TIME_FMT` are modelled by the `DateTime` structure; `datetime`
comparison is lexicographic on the fields.  Persistence (`save_data`) is
modelled by a Boolean in each operation's result recording whether the
operation reached its `save_data` call.  `datetime.now()` is an explicit
argument.  Python floats (`duration_hours`) are modelled by `Rat`.
-/

deriving instance DecidableEq for Except

namespace Scheduler

structure DateTime where
  year : Nat
  month : Nat
  day : Nat
  hour : Nat
  minute : Nat
deriving DecidableEq

/-- Days in a month, with the Gregorian leap-year rule, as `datetime` validates it. -/
def daysInMonth (y m : Nat) : Nat :=
  if m = 2 then (if (y % 4 = 0 ∧ y % 100 ≠ 0) ∨ y % 400 = 0 then 29 else 28)
  else if m = 4 ∨ m = 6 ∨ m = 9 ∨ m = 11 then 30 else 31

def digitVal (c : Char) : Nat := c.toNat - 48

def twoDigits (a b : Char) : Nat := 10 * digitVal a + digitVal b

/-- The `parse_date` of `data_handler.py`, that is `datetime.strptime(s, DATE_TIME_FMT)`
with `DATE_TIME_FMT = "%Y-%m-%d %H:%M"`, returning `none` instead of raising
`ValueError`.  Modelled for the canonical zero-padded form `YYYY-MM-DD HH:MM`,
the only form the repository itself writes back via `strftime`; field ranges are
validated as `datetime` does. -/
def parse_date (s : String) : Option DateTime :=
  match s.data with
  | [y1, y2, y3, y4, '-', m1, m2, '-', d1, d2, ' ', h1, h2, ':', n1, n2] =>
    if ([y1, y2, y3, y4, m1, m2, d1, d2, h1, h2, n1, n2].all Char.isDigit) then
      let y := 1000 * digitVal y1 + 100 * digitVal y2 + 10 * digitVal y3 + digitVal y4
      let mo := twoDigits m1 m2
      let d := twoDigits d1 d2
      let h := twoDigits h1 h2
      let mi := twoDigits n1 n2
      if 1 ≤ mo ∧ mo ≤ 12 ∧ 1 ≤ d ∧ d ≤ daysInMonth y mo ∧ h ≤ 23 ∧ mi ≤ 59 then
        some ⟨y, mo, d, h, mi⟩
      else none
    else none
  | _ => none

def pad2 (n : Nat) : String := if n < 10 then "0" ++ toString n else toString n

def pad4 (n : Nat) : String :=
  if n < 10 then "000" ++ toString n
  else if n < 100 then "00" ++ toString n
  else if n < 1000 then "0" ++ toString n
  else toString n

/-- `strftime(DATE_TIME_FMT)` applied to a parsed datetime. -/
def formatDate (d : DateTime) : String :=
  pad4 d.year ++ "-" ++ pad2 d.month ++ "-" ++ pad2 d.day ++ " "
    ++ pad2 d.hour ++ ":" ++ pad2 d.minute

/-- Lexicographic comparison step: compare the projection `f` first and break
ties with `rest`; Python compares tuples field by field in exactly this way. -/
def lexComp {α β : Type} [LinearOrder β] (f : α → β) (rest : α → α → Bool)
    (a b : α) : Bool :=
  if f a = f b then rest a b else decide (f a < f b)

/-- Final component of a lexicographic comparison chain. -/
def leComp {α β : Type} [LinearOrder β] (f : α → β) (a b : α) : Bool :=
  decide (f a ≤ f b)

/-- Python `datetime` order (`<=`): lexicographic on (year, month, day, hour, minute). -/
def dtLe : DateTime → DateTime → Bool :=
  lexComp DateTime.year (lexComp DateTime.month (lexComp DateTime.day
    (lexComp DateTime.hour (leComp DateTime.minute))))

/-- Python `date()` order (`<=`): lexicographic on (year, month, day) only,
ignoring the time of day. -/
def dateLe : DateTime → DateTime → Bool :=
  lexComp DateTime.year (lexComp DateTime.month (leComp DateTime.day))

/-- Advance a valid datetime by one minute, carrying through hour, day, month, year. -/
def addOneMinute (d : DateTime) : DateTime :=
  if d.minute + 1 ≤ 59 then { d with minute := d.minute + 1 }
  else if d.hour + 1 ≤ 23 then { d with minute := 0, hour := d.hour + 1 }
  else if d.day + 1 ≤ daysInMonth d.year d.month then
    { d with minute := 0, hour := 0, day := d.day + 1 }
  else if d.month + 1 ≤ 12 then
    { d with minute := 0, hour := 0, day := 1, month := d.month + 1 }
  else { d with minute := 0, hour := 0, day := 1, month := 1, year := d.year + 1 }

/-- `d + timedelta(minutes=k)` on valid datetimes. -/
def addMinutes (d : DateTime) : Nat → DateTime
  | 0 => d
  | k + 1 => addOneMinute (addMinutes d k)

/-- A task record as built by `add_task_data`.  `reminder_sent` models the
transient `_reminder_sent` dictionary key of `reminder_system.py`, where an
absent key reads as `false`; `completed_at` is `none` until completion. -/
structure Task where
  id : Nat
  name : String
  deadline : String
  duration_hours : Rat
  priority : Int
  created_at : DateTime
  completed : Bool
  completed_at : Option DateTime
  reminder_sent : Bool
deriving DecidableEq

/-- The `data` dictionary: the `tasks` list plus the `points` accumulator. -/
structure Store where
  tasks : List Task
  points : Int
deriving DecidableEq

/-- `next_id` from `data_handler.py`: 1 for an empty collection, else max id + 1. -/
def next_id (tasks : List Task) : Nat :=
  if tasks.isEmpty then 1 else (tasks.map Task.id).foldr max 0 + 1

/-- `add_task_data(data, name, deadline, duration_hours, priority)` from `tasks.py`.
Result: (returned value or raised error, the `data` dictionary after the call,
whether `save_data` ran).  The only validation in the code is the `strptime`
of `deadline`; the conversions `str(name)`, `float(duration_hours)` and
`int(priority)` are modelled by the typed arguments.  The stored deadline is
`dt.strftime(DATE_TIME_FMT)` and `created_at` is `datetime.now()`, passed as `now`.
`newTask` is the task dictionary literal built on the success path. -/
def newTask (s : Store) (name : String) (dt : DateTime) (duration_hours : Rat)
    (priority : Int) (now : DateTime) : Task :=
  { id := next_id s.tasks, name := name, deadline := formatDate dt,
    duration_hours := duration_hours, priority := priority,
    created_at := now, completed := false, completed_at := none,
    reminder_sent := false }

def add_task_data (s : Store) (name deadline : String) (duration_hours : Rat)
    (priority : Int) (now : DateTime) : Except String Task × Store × Bool :=
  match parse_date deadline with
  | none => (Except.error "Invalid deadline format. Use YYYY-MM-DD HH:MM", s, false)
  | some dt =>
    (Except.ok (newTask s name dt duration_hours priority now),
      { s with tasks := s.tasks ++ [newTask s name dt duration_hours priority now] }, true)

/-- `delete_task_data(data, task_id)` from `tasks.py`: find the first task with
the given id (raising `KeyError` if none), then `tasks.remove(found)`, which
removes the first list element equal to `found` (`List.erase`). -/
def delete_task_data (s : Store) (tid : Nat) : Except String Task × Store × Bool :=
  match s.tasks.find? (fun t => t.id == tid) with
  | none => (Except.error ("No task with id " ++ toString tid), s, false)
  | some found => (Except.ok found, { s with tasks := s.tasks.erase found }, true)

/-- The in-place completion mutation: `found["completed"] = True` and
`found["completed_at"] = now` mutate the task object where it sits in the list,
that is the first task with the given id. -/
def setCompleted (tid : Nat) (now : DateTime) : List Task → List Task
  | [] => []
  | t :: ts =>
    if t.id == tid then { t with completed := true, completed_at := some now } :: ts
    else t :: setCompleted tid now ts

/-- The reward computed by `mark_complete_data`: 10 if the stored deadline parses
and `now.date() <= deadline.date()`, else 5 (a `None` from `parse_date` is falsy). -/
def rewardFor (t : Task) (now : DateTime) : Int :=
  match parse_date t.deadline with
  | some dl => if dateLe now dl then 10 else 5
  | none => 5

/-- `mark_complete_data(data, task_id)` from `tasks.py`.  Already-completed tasks
return `(found, 0)` before any mutation or `save_data`. -/
def mark_complete_data (s : Store) (tid : Nat) (now : DateTime) :
    Except String (Task × Int) × Store × Bool :=
  match s.tasks.find? (fun t => t.id == tid) with
  | none => (Except.error ("No task with id " ++ toString tid), s, false)
  | some found =>
    if found.completed then (Except.ok (found, 0), s, false)
    else
      let gained := rewardFor found now
      (Except.ok ({ found with completed := true, completed_at := some now }, gained),
        { tasks := setCompleted tid now s.tasks, points := s.points + gained }, true)

/-- The parsed deadline used in the EDF sort key; the `getD` default is only
reached on tasks whose deadline does not parse, on which `suggest_edf` raises
before ever comparing (see `dOk` and `suggest_edf`). -/
def dVal (t : Task) : DateTime := (parse_date t.deadline).getD ⟨0, 0, 0, 0, 0⟩

def dOk (t : Task) : Nat := if (parse_date t.deadline).isSome then 0 else 1

/-- The sort comparison of `suggest_edf`: Python compares the key tuples
`(strptime(deadline), priority, duration_hours, id)` lexicographically.
The leading `dOk` component merely totalises the comparison over tasks with
unparseable deadlines, on which the code raises before sorting. -/
def edf_le : Task → Task → Bool :=
  lexComp dOk (lexComp (fun t => (dVal t).year) (lexComp (fun t => (dVal t).month)
    (lexComp (fun t => (dVal t).day) (lexComp (fun t => (dVal t).hour)
      (lexComp (fun t => (dVal t).minute) (lexComp Task.priority
        (lexComp Task.duration_hours (leComp Task.id))))))))

/-- `suggest_edf(data)` from `tasks.py`: filter to pending tasks, return `[]`
when there are none; otherwise `sorted` evaluates `strptime` on every pending
deadline (raising `ValueError` on a malformed one, the error branch here) and
stable-sorts by the key tuple.  The sort is modelled by insertion sort with
`edf_le`; with the final id component the sorted order is deterministic. -/
def suggest_edf (s : Store) : Except String (List Task) :=
  let pending := s.tasks.filter (fun t => !t.completed)
  if pending.isEmpty then Except.ok []
  else if pending.all (fun t => (parse_date t.deadline).isSome) then
    Except.ok (List.insertionSort (fun a b => edf_le a b = true) pending)
  else Except.error "Invalid deadline format. Use YYYY-MM-DD HH:MM"

/-- One pass of the `check_reminders` loop over the task list, returning the
tasks notified and the updated list: completed tasks are skipped, an
unparseable deadline is skipped (`except: continue`), and a task with
`now <= deadline <= upcoming` whose `_reminder_sent` flag is unset is
notified and flagged in place. -/
def checkTasks (now upcoming : DateTime) : List Task → List Task × List Task
  | [] => ([], [])
  | t :: ts =>
    let rest := checkTasks now upcoming ts
    if t.completed then (rest.1, t :: rest.2)
    else
      match parse_date t.deadline with
      | none => (rest.1, t :: rest.2)
      | some d =>
        if dtLe now d && dtLe d upcoming && !t.reminder_sent then
          (t :: rest.1, { t with reminder_sent := true } :: rest.2)
        else (rest.1, t :: rest.2)

def REMINDER_WINDOW_MIN : Nat := 10

/-- `check_reminders()` from `reminder_system.py`, with the store and the clock
explicit: returns the list of tasks for which a notification fired and the
store with the updated `_reminder_sent` flags. -/
def check_reminders (s : Store) (now : DateTime) : List Task × Store :=
  let upcoming := addMinutes now REMINDER_WINDOW_MIN
  let res := checkTasks now upcoming s.tasks
  (res.1, { s with tasks := res.2 })

/-- A caller-driven script of Add and Delete lifecycle operations. -/
inductive Op where
  | addT (name deadline : String) (duration_hours : Rat) (priority : Int) (now : DateTime)
  | delT (tid : Nat)

/-- Apply one scripted operation, returning the store after the call and the id
assigned when the operation was a successful Add. -/
def applyOp (s : Store) : Op → Store × Option Nat
  | Op.addT n dl du p now =>
    match add_task_data s n dl du p now with
    | (Except.ok t, s', _) => (s', some t.id)
    | (Except.error _, s', _) => (s', none)
  | Op.delT tid => ((delete_task_data s tid).2.1, none)

/-- Run a script of operations; return the final store and the ids assigned by
the successful Adds, in assignment order. -/
def runOps (s : Store) : List Op → Store × List Nat
  | [] => (s, [])
  | op :: ops =>
    let first := applyOp s op
    let rest := runOps first.1 ops
    (rest.1, match first.2 with
      | some i => i :: rest.2
      | none => rest.2)

/-- Whether a scripted operation is an Add. -/
def isAdd : Op → Bool
  | Op.addT _ _ _ _ _ => true
  | Op.delT _ => false

/-- The branch condition of the `check_reminders` loop for a single task,
relative to clock `now` and window end `up`: pending, parseable deadline,
inside the window, not yet notified. -/
def condB (now up : DateTime) (t : Task) : Bool :=
  if t.completed then false
  else
    match parse_date t.deadline with
    | none => false
    | some d => dtLe now d && dtLe d up && !t.reminder_sent

/-- The per-task store effect of the `check_reminders` loop: set the
`_reminder_sent` flag exactly on the notified tasks. -/
def markIf (now up : DateTime) (t : Task) : Task :=
  if condB now up t then { t with reminder_sent := true } else t

/-! Concrete data used by the closed witness and counterexample theorems. -/

def now0 : DateTime := ⟨2025, 1, 1, 8, 0⟩

def tEarly : Task := ⟨1, "a", "2025-01-02 10:00", 1, 2, now0, false, none, false⟩

def tEarlier : Task := ⟨2, "b", "2025-01-01 10:00", 1, 1, now0, false, none, false⟩

def tDone : Task := ⟨3, "c", "2025-01-01 09:00", 1, 1, now0, true, some now0, false⟩

def tBad : Task := ⟨4, "d", "oops", 2, 3, now0, false, none, false⟩

def s2 : Store := ⟨[tEarly, tEarlier, tDone], 0⟩

def sBad : Store := ⟨[tEarly, tBad], 5⟩

def sDone : Store := ⟨[tDone], 7⟩

def tSoon : Task := ⟨1, "s", "2025-01-01 08:05", 1, 1, now0, false, none, false⟩

def tLater : Task := ⟨2, "l", "2025-01-01 08:15", 1, 1, now0, false, none, false⟩

def sRem : Store := ⟨[tSoon, tLater], 0⟩

def tMidnight : Task := ⟨1, "m", "2025-01-10 00:05", 1, 1, now0, false, none, false⟩

def sMid : Store := ⟨[tMidnight], 0⟩

def lateNow : DateTime := ⟨2025, 1, 10, 23, 55⟩

def c1ops : List Op :=
  [Op.addT "a" "2025-01-01 10:00" 1 1 now0,
   Op.addT "b" "2025-01-02 10:00" 1 1 now0,
   Op.delT 2,
   Op.addT "c" "2025-01-03 10:00" 1 1 now0]

def c1addOnly : List Op :=
  [Op.addT "a" "2025-01-01 10:00" 1 1 now0,
   Op.addT "b" "2025-01-02 10:00" 1 1 now0]

/-! Generic lemmas about the lexicographic comparison combinators. -/

theorem leComp_trans {α β : Type} [LinearOrder β] (f : α → β) (a b c : α)
    (hab : leComp f a b = true) (hbc : leComp f b c = true) : leComp f a c = true := by
  rw [leComp, decide_eq_true_iff] at hab hbc ⊢
  exact le_trans hab hbc

theorem leComp_total {α β : Type} [LinearOrder β] (f : α → β) (a b : α) :
    leComp f a b = true ∨ leComp f b a = true := by
  rw [leComp, decide_eq_true_iff, leComp, decide_eq_true_iff]
  exact le_total _ _

theorem lexComp_trans {α β : Type} [LinearOrder β] (f : α → β) (rest : α → α → Bool)
    (hrest : ∀ a b c, rest a b = true → rest b c = true → rest a c = true)
    (a b c : α) (hab : lexComp f rest a b = true) (hbc : lexComp f rest b c = true) :
    lexComp f rest a c = true := by
  unfold lexComp at hab hbc ⊢
  by_cases h1 : f a = f b
  · by_cases h2 : f b = f c
    · rw [if_pos h1] at hab
      rw [if_pos h2] at hbc
      rw [if_pos (h1.trans h2)]
      exact hrest a b c hab hbc
    · rw [if_neg h2, decide_eq_true_iff] at hbc
      have hac : f a < f c := lt_of_le_of_lt (le_of_eq h1) hbc
      rw [if_neg (ne_of_lt hac), decide_eq_true_iff]
      exact hac
  · by_cases h2 : f b = f c
    · rw [if_neg h1, decide_eq_true_iff] at hab
      have hac : f a < f c := lt_of_lt_of_le hab (le_of_eq h2)
      rw [if_neg (ne_of_lt hac), decide_eq_true_iff]
      exact hac
    · rw [if_neg h1, decide_eq_true_iff] at hab
      rw [if_neg h2, decide_eq_true_iff] at hbc
      have hac : f a < f c := lt_trans hab hbc
      rw [if_neg (ne_of_lt hac), decide_eq_true_iff]
      exact hac

theorem lexComp_total {α β : Type} [LinearOrder β] (f : α → β) (rest : α → α → Bool)
    (hrest : ∀ a b, rest a b = true ∨ rest b a = true)
    (a b : α) : lexComp f rest a b = true ∨ lexComp f rest b a = true := by
  unfold lexComp
  by_cases h : f a = f b
  · rw [if_pos h, if_pos h.symm]
    exact hrest a b
  · rcases lt_or_gt_of_ne h with hlt | hgt
    · left
      rw [if_neg h, decide_eq_true_iff]
      exact hlt
    · right
      rw [if_neg (Ne.symm h), decide_eq_true_iff]
      exact hgt

theorem edf_le_trans (a b c : Task) (hab : edf_le a b = true) (hbc : edf_le b c = true) :
    edf_le a c = true := by
  unfold edf_le at hab hbc ⊢
  exact lexComp_trans _ _ (lexComp_trans _ _ (lexComp_trans _ _ (lexComp_trans _ _
    (lexComp_trans _ _ (lexComp_trans _ _ (lexComp_trans _ _ (lexComp_trans _ _
      (leComp_trans Task.id)))))))) a b c hab hbc

theorem edf_le_total (a b : Task) : edf_le a b = true ∨ edf_le b a = true := by
  unfold edf_le
  exact lexComp_total _ _ (lexComp_total _ _ (lexComp_total _ _ (lexComp_total _ _
    (lexComp_total _ _ (lexComp_total _ _ (lexComp_total _ _ (lexComp_total _ _
      (leComp_total Task.id)))))))) a b

instance edfLeIsTrans : IsTrans Task (fun a b => edf_le a b = true) :=
  ⟨edf_le_trans⟩

instance edfLeIsTotal : IsTotal Task (fun a b => edf_le a b = true) :=
  ⟨edf_le_total⟩

/-! Lemmas about `next_id`. -/

theorem le_foldr_max (l : List Nat) (x : Nat) (hx : x ∈ l) : x ≤ l.foldr max 0 := by
  induction l with
  | nil => cases hx
  | cons a l ih =>
    rcases List.mem_cons.mp hx with h | h
    · subst h
      exact le_max_left _ _
    · exact le_trans (ih h) (le_max_right _ _)

/-- `next_id` is fresh: it is strictly greater than every id already in the store. -/
theorem id_lt_next_id (tasks : List Task) (t : Task) (ht : t ∈ tasks) :
    t.id < next_id tasks := by
  unfold next_id
  rw [if_neg]
  · have hmem : t.id ∈ tasks.map Task.id := List.mem_map_of_mem _ ht
    have := le_foldr_max _ _ hmem
    omega
  · intro h
    rw [List.isEmpty_iff] at h
    subst h
    cases ht

/-! Lemmas about the reminder-loop condition and effect. -/

theorem condB_parse (now up : DateTime) (t : Task) (h : condB now up t = true) :
    (parse_date t.deadline).isSome = true := by
  unfold condB at h
  by_cases hc : t.completed
  · simp [hc] at h
  · cases hp : parse_date t.deadline with
    | none => rw [if_neg hc, hp] at h; cases h
    | some d => simp [hp]

theorem condB_of_parse_none (now up : DateTime) (t : Task)
    (h : parse_date t.deadline = none) : condB now up t = false := by
  unfold condB
  by_cases hc : t.completed
  · simp [hc]
  · rw [if_neg hc, h]

theorem condB_flag_false (now up : DateTime) (t : Task)
    (h : t.reminder_sent = true) : condB now up t = false := by
  unfold condB
  by_cases hc : t.completed
  · simp [hc]
  · cases hp : parse_date t.deadline with
    | none => rw [if_neg hc]
    | some d => rw [if_neg hc]; simp [h]

theorem markIf_id (now up : DateTime) (t : Task) : (markIf now up t).id = t.id := by
  unfold markIf
  split <;> rfl

theorem markIf_of_cond (now up : DateTime) (t : Task) (h : condB now up t = true) :
    markIf now up t = { t with reminder_sent := true } := by
  unfold markIf
  rw [if_pos h]

theorem markIf_of_not_cond (now up : DateTime) (t : Task) (h : condB now up t = false) :
    markIf now up t = t := by
  unfold markIf
  rw [h]
  rfl

/-- The `check_reminders` loop, characterised: the notified tasks are exactly the
filter of the window condition, and the task list is mapped through the flag update. -/
theorem checkTasks_eq (now up : DateTime) (ts : List Task) :
    checkTasks now up ts = (ts.filter (condB now up), ts.map (markIf now up)) := by
  induction ts with
  | nil => rfl
  | cons t ts ih =>
    by_cases hc : t.completed
    · simp [checkTasks, ih, condB, markIf, hc, List.filter_cons]
    · cases hp : parse_date t.deadline with
      | none => simp [checkTasks, ih, condB, markIf, hc, hp, List.filter_cons]
      | some d =>
        by_cases hw : (dtLe now d && dtLe d up && !t.reminder_sent) = true
        · simp [checkTasks, ih, condB, markIf, hc, hp, hw, List.filter_cons]
        · rw [Bool.not_eq_true] at hw
          simp [checkTasks, ih, condB, markIf, hc, hp, hw, List.filter_cons]

theorem check_reminders_fst (s : Store) (now : DateTime) :
    (check_reminders s now).1
      = s.tasks.filter (condB now (addMinutes now REMINDER_WINDOW_MIN)) := by
  simp only [check_reminders, checkTasks_eq]

theorem check_reminders_snd (s : Store) (now : DateTime) :
    (check_reminders s now).2.tasks
      = s.tasks.map (markIf now (addMinutes now REMINDER_WINDOW_MIN)) := by
  simp only [check_reminders, checkTasks_eq]

/-! Lemmas about deletion. -/

/-- When ids are pairwise distinct, `tasks.remove(found)` for the first task with
a given id removes exactly the tasks with that id, preserving everything else. -/
theorem erase_found_eq_filter (tasks : List Task) (tid : Nat) (t : Task)
    (hnd : (tasks.map Task.id).Nodup)
    (hfind : tasks.find? (fun u => u.id == tid) = some t) :
    tasks.erase t = tasks.filter (fun u => u.id ≠ tid) := by
  induction tasks with
  | nil => cases hfind
  | cons u ts ih =>
    rw [List.map_cons, List.nodup_cons] at hnd
    by_cases hu : u.id = tid
    · have hut : u = t := by
        rw [List.find?_cons_of_pos _ (by simp [hu])] at hfind
        exact Option.some.inj hfind
      subst hut
      rw [List.erase_cons_head, List.filter_cons_of_neg (by simp [hu])]
      have hall : ∀ v ∈ ts, (fun w : Task => decide (w.id ≠ tid)) v = true := by
        intro v hv
        have hvm : v.id ∈ ts.map Task.id := List.mem_map_of_mem _ hv
        simp only [decide_eq_true_iff]
        intro heq
        exact hnd.1 (by rw [hu, ← heq]; exact hvm)
      exact (List.filter_eq_self.mpr hall).symm
    · have hfind' : ts.find? (fun v => v.id == tid) = some t := by
        rw [List.find?_cons_of_neg _ (by simp [hu])] at hfind
        exact hfind
      have htid : t.id = tid := by
        have := List.find?_some hfind'
        simpa using this
      have hne : u ≠ t := fun h => hu (by rw [h, htid])
      rw [List.erase_cons_tail (by simpa using hne),
        List.filter_cons_of_pos (by simp [hu]), ih hnd.2 hfind']

/-! Lemmas about scripted runs of Add and Delete. -/

theorem applyOp_add_none (s : Store) (n dl : String) (du : Rat) (p : Int)
    (now : DateTime) (hp : parse_date dl = none) :
    applyOp s (Op.addT n dl du p now) = (s, none) := by
  simp [applyOp, add_task_data, hp]

theorem applyOp_add_some (s : Store) (n dl : String) (du : Rat) (p : Int)
    (now : DateTime) (d : DateTime) (hp : parse_date dl = some d) :
    applyOp s (Op.addT n dl du p now)
      = ({ s with tasks := s.tasks ++ [newTask s n d du p now] },
         some (next_id s.tasks)) := by
  simp [applyOp, add_task_data, hp, newTask]

theorem applyOp_nodup (s : Store) (op : Op)
    (h : (s.tasks.map Task.id).Nodup) :
    (((applyOp s op).1).tasks.map Task.id).Nodup := by
  cases op with
  | addT n dl du p now =>
    cases hp : parse_date dl with
    | none => rw [applyOp_add_none s n dl du p now hp]; exact h
    | some d =>
      rw [applyOp_add_some s n dl du p now d hp]
      simp only [List.map_append, List.map_cons, List.map_nil]
      rw [List.nodup_append]
      refine ⟨h, List.nodup_singleton _, ?_⟩
      intro a ha hb
      rcases List.mem_map.mp ha with ⟨t, ht, rfl⟩
      have hlt := id_lt_next_id s.tasks t ht
      have : t.id = (newTask s n d du p now).id := by simpa using hb
      rw [this] at hlt
      simp [newTask] at hlt
  | delT tid =>
    cases hf : s.tasks.find? (fun t => t.id == tid) with
    | none => simp only [applyOp, delete_task_data, hf]; exact h
    | some found =>
      simp only [applyOp, delete_task_data, hf]
      exact List.Sublist.nodup ((List.erase_sublist _ _).map Task.id) h

theorem runOps_nodup (ops : List Op) (s : Store)
    (h : (s.tasks.map Task.id).Nodup) :
    (((runOps s ops).1).tasks.map Task.id).Nodup := by
  induction ops generalizing s with
  | nil => exact h
  | cons op ops ih =>
    simp only [runOps]
    exact ih _ (applyOp_nodup s op h)

theorem runOps_addOnly (ops : List Op) (s : Store)
    (hadd : ∀ op ∈ ops, isAdd op = true) :
    (runOps s ops).2.Pairwise (· < ·) ∧
      ∀ i ∈ (runOps s ops).2, ∀ t ∈ s.tasks, t.id < i := by
  induction ops generalizing s with
  | nil => exact ⟨List.Pairwise.nil, fun i hi => by cases hi⟩
  | cons op ops ih =>
    have hadd' : ∀ o ∈ ops, isAdd o = true :=
      fun o ho => hadd o (List.mem_cons_of_mem _ ho)
    obtain ⟨n, dl, du, p, now, rfl⟩ : ∃ n dl du p now, op = Op.addT n dl du p now := by
      cases op with
      | addT n dl du p now => exact ⟨n, dl, du, p, now, rfl⟩
      | delT tid => exact absurd (hadd _ (List.mem_cons_self _ _)) (by simp [isAdd])
    cases hp : parse_date dl with
    | none =>
      simp only [runOps, applyOp_add_none s n dl du p now hp]
      exact ih s hadd'
    | some d =>
      simp only [runOps, applyOp_add_some s n dl du p now d hp]
      obtain ⟨ihp, ihb⟩ := ih { s with tasks := s.tasks ++ [newTask s n d du p now] } hadd'
      constructor
      · refine List.Pairwise.cons ?_ ihp
        intro i hi
        have := ihb i hi (newTask s n d du p now)
          (List.mem_append_right _ (List.mem_singleton_self _))
        simpa [newTask] using this
      · intro i hi t ht
        rcases List.mem_cons.mp hi with rfl | hi'
        · exact id_lt_next_id s.tasks t ht
        · exact ihb i hi' t (List.mem_append_left _ ht)

/-! The claims. -/

/-- C1, counterexample to the claim as stated: from the empty store, Add, Add,
Delete the task with id 2, Add assigns the id sequence [1, 2, 2] — the id 2 is
reassigned after an intervening deletion and the assigned ids are neither
unique over time nor strictly increasing. -/
theorem c1_counterexample :
    (runOps ⟨[], 0⟩ c1ops).2 = [1, 2, 2] ∧
      ¬ (runOps ⟨[], 0⟩ c1ops).2.Pairwise (fun a b : Nat => a < b) := by
  decide

/-- C1, amended: `next_id` assigns an id strictly greater than every id currently
in the store, so ids stay pairwise distinct within the store across any sequence
of Add and Delete operations, and for Add-only sequences the assigned ids are
strictly increasing in assignment order.  (After a deletion an id can be
reassigned, so the original never-reused clause fails.) -/
theorem c1_id_assignment (s : Store) (ops : List Op) :
    (∀ t ∈ s.tasks, t.id < next_id s.tasks) ∧
    ((s.tasks.map Task.id).Nodup → (((runOps s ops).1).tasks.map Task.id).Nodup) ∧
    ((∀ op ∈ ops, isAdd op = true) → (runOps s ops).2.Pairwise (fun a b : Nat => a < b)) :=
  ⟨fun t ht => id_lt_next_id s.tasks t ht,
   fun h => runOps_nodup ops s h,
   fun h => (runOps_addOnly ops s h).1⟩

/-- Witness for C1 at a concrete input: two Adds from the empty store keep ids
distinct and assign the strictly increasing sequence of ids. -/
theorem c1_witness :
    (∀ t ∈ (⟨[], 0⟩ : Store).tasks, t.id < next_id (⟨[], 0⟩ : Store).tasks) ∧
    (((runOps ⟨[], 0⟩ c1addOnly).1).tasks.map Task.id).Nodup ∧
    (runOps (⟨[], 0⟩ : Store) c1addOnly).2.Pairwise (fun a b : Nat => a < b) :=
  ⟨(c1_id_assignment ⟨[], 0⟩ c1addOnly).1,
   (c1_id_assignment ⟨[], 0⟩ c1addOnly).2.1 (by decide),
   (c1_id_assignment ⟨[], 0⟩ c1addOnly).2.2 (by decide)⟩

/-- C3: completing a pending task with a parseable deadline at time `now` sets
`completed` and `completed_at = now`, awards 10 points when `now.date()` is on
or before the deadline's calendar date and 5 otherwise, adds the reward to
`points`, and persists.  The comparison is date-only (`dateLe`). -/
theorem c3_mark_complete_reward (s : Store) (tid : Nat) (now dl : DateTime) (t : Task)
    (hfind : s.tasks.find? (fun u => u.id == tid) = some t)
    (hpend : t.completed = false)
    (hparse : parse_date t.deadline = some dl) :
    mark_complete_data s tid now =
      (Except.ok ({ t with completed := true, completed_at := some now },
          if dateLe now dl then 10 else 5),
        { tasks := setCompleted tid now s.tasks,
          points := s.points + (if dateLe now dl then 10 else 5) }, true) := by
  unfold mark_complete_data rewardFor
  rw [hfind]
  simp [hpend, hparse]

/-- Witness for C3: a task due 2025-01-10 00:05 completed 2025-01-10 23:55 — same
calendar date, late by clock time — still earns the full 10 points. -/
theorem c3_witness :
    sMid.tasks.find? (fun u => u.id == 1) = some tMidnight ∧
    tMidnight.completed = false ∧
    parse_date tMidnight.deadline = some ⟨2025, 1, 10, 0, 5⟩ ∧
    mark_complete_data sMid 1 lateNow =
      (Except.ok ({ tMidnight with completed := true, completed_at := some lateNow }, 10),
        { tasks := setCompleted 1 lateNow sMid.tasks, points := sMid.points + 10 }, true) := by
  refine ⟨by decide, by decide, by decide, ?_⟩
  have h := c3_mark_complete_reward sMid 1 lateNow ⟨2025, 1, 10, 0, 5⟩ tMidnight
    (by decide) (by decide) (by decide)
  rw [h]
  decide

/-- C4: marking an already-completed task is a no-op — it returns the task with
reward 0, leaves the store (points and `completed_at` included) unchanged, and
does not persist. -/
theorem c4_idempotent (s : Store) (tid : Nat) (now : DateTime) (t : Task)
    (hfind : s.tasks.find? (fun u => u.id == tid) = some t)
    (hdone : t.completed = true) :
    mark_complete_data s tid now = (Except.ok (t, 0), s, false) := by
  unfold mark_complete_data
  rw [hfind]
  simp [hdone]

/-- Witness for C4 at a concrete input: re-completing the already-completed task
returns reward 0 and leaves the store untouched. -/
theorem c4_witness :
    mark_complete_data sDone 3 now0 = (Except.ok (tDone, 0), sDone, false) :=
  c4_idempotent sDone 3 now0 tDone (by decide) (by decide)

/-- C6, counterexample to the claim as stated: Add accepts an empty name, a
duration of 0 and a priority of 9 without any ValidationError — the only
validated input is the deadline text. -/
theorem c6_counterexample :
    add_task_data ⟨[], 0⟩ "" "2025-01-01 10:00" 0 9 now0 =
      (Except.ok ⟨1, "", "2025-01-01 10:00", 0, 9, now0, false, none, false⟩,
        ⟨[⟨1, "", "2025-01-01 10:00", 0, 9, now0, false, none, false⟩], 0⟩, true) := by
  decide

/-- C6, amended: Add fails (with the invalid-deadline ValueError) exactly when
`deadline_text` does not parse as YYYY-MM-DD HH:MM; name, duration and priority
are not validated.  On success it appends a task with a fresh id from `next_id`
carrying the given fields, leaves `points` unchanged, and returns the task. -/
theorem c6_add_validation (s : Store) (name dl : String) (du : Rat) (p : Int)
    (now : DateTime) :
    ((add_task_data s name dl du p now).1.isOk = (parse_date dl).isSome) ∧
    (parse_date dl = none →
      add_task_data s name dl du p now =
        (Except.error "Invalid deadline format. Use YYYY-MM-DD HH:MM", s, false)) ∧
    (∀ t', (add_task_data s name dl du p now).1 = Except.ok t' →
      t'.id = next_id s.tasks ∧ t'.name = name ∧ t'.duration_hours = du ∧
        t'.priority = p ∧ t'.completed = false ∧
        (add_task_data s name dl du p now).2.1.tasks = s.tasks ++ [t'] ∧
        (add_task_data s name dl du p now).2.1.points = s.points) := by
  cases hp : parse_date dl with
  | none =>
    refine ⟨?_, fun _ => by simp [add_task_data, hp], ?_⟩
    · simp only [add_task_data, hp]
      rfl
    · intro t' ht'
      simp [add_task_data, hp] at ht'
  | some d =>
    refine ⟨?_, ?_, ?_⟩
    · simp only [add_task_data, hp]
      rfl
    · intro h
      cases h
    · intro t' ht'
      simp only [add_task_data, hp] at ht'
      rw [Except.ok.injEq] at ht'
      subst ht'
      simp [add_task_data, hp, newTask]

/-- Witness for C6 at concrete inputs: an unparseable deadline is rejected with
the store untouched, and a parseable one appends a fresh task. -/
theorem c6_witness :
    add_task_data s2 "x" "nope" 1 1 now0 =
      (Except.error "Invalid deadline format. Use YYYY-MM-DD HH:MM", s2, false) ∧
    ∀ t', (add_task_data s2 "x" "2025-02-01 12:00" 1 1 now0).1 = Except.ok t' →
      t'.id = next_id s2.tasks ∧ t'.name = "x" ∧ t'.duration_hours = 1 ∧
        t'.priority = 1 ∧ t'.completed = false ∧
        (add_task_data s2 "x" "2025-02-01 12:00" 1 1 now0).2.1.tasks = s2.tasks ++ [t'] ∧
        (add_task_data s2 "x" "2025-02-01 12:00" 1 1 now0).2.1.points = s2.points :=
  ⟨(c6_add_validation s2 "x" "nope" 1 1 now0).2.1 (by decide),
   (c6_add_validation s2 "x" "2025-02-01 12:00" 1 1 now0).2.2⟩

/-- C7: failed lifecycle operations are atomic — an Add whose deadline does not
parse, and a Delete or MarkComplete whose id is absent, raise and leave the
store (tasks and points) exactly as it was, without reaching `save_data`. -/
theorem c7_atomic_failure (s : Store) :
    (∀ name dl du p now, parse_date dl = none →
      add_task_data s name dl du p now =
        (Except.error "Invalid deadline format. Use YYYY-MM-DD HH:MM", s, false)) ∧
    (∀ tid, s.tasks.find? (fun t => t.id == tid) = none →
      delete_task_data s tid =
        (Except.error ("No task with id " ++ toString tid), s, false)) ∧
    (∀ tid now, s.tasks.find? (fun t => t.id == tid) = none →
      mark_complete_data s tid now =
        (Except.error ("No task with id " ++ toString tid), s, false)) := by
  refine ⟨?_, ?_, ?_⟩
  · intro name dl du p now hp
    simp [add_task_data, hp]
  · intro tid hf
    simp [delete_task_data, hf]
  · intro tid now hf
    simp [mark_complete_data, hf]

/-- Witness for C7 at concrete inputs: each failing operation returns the store
unchanged and unpersisted. -/
theorem c7_witness :
    add_task_data s2 "x" "oops" 1 1 now0 =
      (Except.error "Invalid deadline format. Use YYYY-MM-DD HH:MM", s2, false) ∧
    delete_task_data s2 9 =
      (Except.error ("No task with id " ++ toString 9), s2, false) ∧
    mark_complete_data s2 9 now0 =
      (Except.error ("No task with id " ++ toString 9), s2, false) :=
  ⟨(c7_atomic_failure s2).1 "x" "oops" 1 1 now0 (by decide),
   (c7_atomic_failure s2).2.1 9 (by decide),
   (c7_atomic_failure s2).2.2 9 now0 (by decide)⟩

/-- C9: completing a pending task whose stored deadline does not parse does not
fail — the task is marked completed with `completed_at = now` and the late
reward of 5 points is awarded, exactly as if the deadline had been missed. -/
theorem c9_malformed_deadline (s : Store) (tid : Nat) (now : DateTime) (t : Task)
    (hfind : s.tasks.find? (fun u => u.id == tid) = some t)
    (hpend : t.completed = false)
    (hparse : parse_date t.deadline = none) :
    mark_complete_data s tid now =
      (Except.ok ({ t with completed := true, completed_at := some now }, 5),
        { tasks := setCompleted tid now s.tasks, points := s.points + 5 }, true) := by
  unfold mark_complete_data rewardFor
  rw [hfind]
  simp [hpend, hparse]

/-- Witness for C9: completing the pending task whose deadline text is "oops"
succeeds and awards 5 points. -/
theorem c9_witness :
    mark_complete_data sBad 4 now0 =
      (Except.ok ({ tBad with completed := true, completed_at := some now0 }, 5),
        { tasks := setCompleted 4 now0 sBad.tasks, points := sBad.points + 5 }, true) :=
  c9_malformed_deadline sBad 4 now0 tBad (by decide) (by decide) (by decide)

/-- C10: when the ids in the store are distinct and a task with the requested id
exists, Delete removes exactly that task — every other task is kept in order
with all fields intact and `points` is unchanged — persists, and returns the
removed task unmodified. -/
theorem c10_delete_frame (s : Store) (tid : Nat) (t : Task)
    (hnd : (s.tasks.map Task.id).Nodup)
    (hfind : s.tasks.find? (fun u => u.id == tid) = some t) :
    delete_task_data s tid =
      (Except.ok t, { s with tasks := s.tasks.filter (fun u => u.id ≠ tid) }, true) ∧
    t ∈ s.tasks ∧ t.id = tid := by
  have ht : t ∈ s.tasks := List.mem_of_find?_eq_some hfind
  have htid : t.id = tid := by simpa using List.find?_some hfind
  refine ⟨?_, ht, htid⟩
  simp only [delete_task_data, hfind]
  rw [erase_found_eq_filter s.tasks tid t hnd hfind]

/-- Witness for C10: deleting id 2 from a three-task store removes exactly that
task, keeps the other two in order, and leaves the points unchanged. -/
theorem c10_witness :
    delete_task_data s2 2 =
      (Except.ok tEarlier,
        { s2 with tasks := s2.tasks.filter (fun u => u.id ≠ 2) }, true) ∧
    tEarlier ∈ s2.tasks ∧ tEarlier.id = 2 :=
  c10_delete_frame s2 2 tEarlier (by decide) (by decide)

/-- C2, counterexample to the claim as stated: on a store holding a pending task
whose stored deadline does not parse, `suggest_edf` raises (the `strptime` in
the sort key) instead of returning a sequence, even though pending tasks exist. -/
theorem c2_counterexample :
    (suggest_edf sBad).isOk = false ∧
      sBad.tasks.filter (fun t => !t.completed) ≠ [] := by
  decide

/-- C2, amended: on every store whose pending tasks all have parseable deadlines,
`suggest_edf` returns (without error) exactly the tasks with `completed = false`,
sorted ascending by the key (deadline, priority, duration_hours, id) — `edf_le` —
never containing a completed task, and empty exactly when no pending task exists. -/
theorem c2_edf_order (s : Store)
    (h : ∀ t ∈ s.tasks, t.completed = false → (parse_date t.deadline).isSome = true) :
    ∃ l, suggest_edf s = Except.ok l ∧
      l.Perm (s.tasks.filter (fun t => !t.completed)) ∧
      List.Pairwise (fun a b => edf_le a b = true) l ∧
      (∀ t ∈ l, t.completed = false) ∧
      (l = [] ↔ s.tasks.filter (fun t => !t.completed) = []) := by
  by_cases hemp : (s.tasks.filter (fun t => !t.completed)).isEmpty = true
  · have hnil : s.tasks.filter (fun t => !t.completed) = [] := by
      rwa [List.isEmpty_iff] at hemp
    refine ⟨[], ?_, ?_, List.Pairwise.nil, ?_, ?_⟩
    · simp only [suggest_edf]
      rw [if_pos hemp]
    · rw [hnil]
    · intro t ht
      cases ht
    · simp [hnil]
  · have hall : (s.tasks.filter (fun t => !t.completed)).all
        (fun t => (parse_date t.deadline).isSome) = true := by
      rw [List.all_eq_true]
      intro t ht
      have ht' := List.mem_of_mem_filter ht
      have hc : t.completed = false := by
        have := List.of_mem_filter ht
        simpa using this
      exact h t ht' hc
    refine ⟨List.insertionSort (fun a b => edf_le a b = true)
        (s.tasks.filter (fun t => !t.completed)), ?_, ?_, ?_, ?_, ?_⟩
    · simp only [suggest_edf]
      rw [if_neg hemp, if_pos hall]
    · exact List.perm_insertionSort _ _
    · exact List.sorted_insertionSort _ _
    · intro t ht
      have hmem : t ∈ s.tasks.filter (fun t => !t.completed) :=
        (List.perm_insertionSort _ _).mem_iff.mp ht
      have := List.of_mem_filter hmem
      simpa using this
    · constructor
      · intro hl
        have hperm := List.perm_insertionSort (fun a b => edf_le a b = true)
          (s.tasks.filter (fun t => !t.completed))
        rw [hl] at hperm
        exact hperm.symm.eq_nil
      · intro hf
        exact absurd (List.isEmpty_iff.mpr hf) hemp

/-- Witness for C2 at a concrete store with two pending tasks and one completed:
the pending tasks come back sorted and the completed one is absent. -/
theorem c2_witness :
    ∃ l, suggest_edf s2 = Except.ok l ∧
      l.Perm (s2.tasks.filter (fun t => !t.completed)) ∧
      List.Pairwise (fun a b => edf_le a b = true) l ∧
      (∀ t ∈ l, t.completed = false) ∧
      (l = [] ↔ s2.tasks.filter (fun t => !t.completed) = []) :=
  c2_edf_order s2 (by decide)

/-- C5: a reminder evaluation at time `now` notifies exactly the pending,
not-yet-flagged tasks whose parseable deadline lies in [now, now + 10 minutes]
(`condB`), flags exactly those tasks in the store (`markIf`), and — when ids are
distinct — a task notified once is never notified by any later evaluation at any
clock value, because its `reminder_sent` flag is now set. -/
theorem c5_due_soon_once (s : Store) (now : DateTime) :
    ((check_reminders s now).1
      = s.tasks.filter (condB now (addMinutes now REMINDER_WINDOW_MIN))) ∧
    ((check_reminders s now).2.tasks
      = s.tasks.map (markIf now (addMinutes now REMINDER_WINDOW_MIN))) ∧
    ((s.tasks.map Task.id).Nodup →
      ∀ t ∈ (check_reminders s now).1, ∀ now' : DateTime,
        ∀ u ∈ (check_reminders (check_reminders s now).2 now').1, u.id ≠ t.id) := by
  refine ⟨check_reminders_fst s now, check_reminders_snd s now, ?_⟩
  intro hnd t ht now' u hu hid
  rw [check_reminders_fst] at ht hu
  rw [check_reminders_snd] at hu
  have humem := List.mem_of_mem_filter hu
  have hucond := List.of_mem_filter hu
  rcases List.mem_map.mp humem with ⟨v, hv, hveq⟩
  have hvid : v.id = t.id := by
    rw [← markIf_id now (addMinutes now REMINDER_WINDOW_MIN) v, hveq]
    exact hid
  have htmem := List.mem_of_mem_filter ht
  have htcond := List.of_mem_filter ht
  have hvt : v = t := List.inj_on_of_nodup_map hnd hv htmem hvid
  subst hvt
  rw [markIf_of_cond _ _ _ htcond] at hveq
  rw [← hveq] at hucond
  rw [condB_flag_false now' _ _ rfl] at hucond
  cases hucond

/-- Witness for C5: with now = T, a task due at T + 5 minutes is notified (and the
task due at T + 15 minutes is not); a second evaluation returns nothing, and the
once-only consequence holds for every later clock value. -/
theorem c5_witness :
    ((check_reminders sRem now0).1
      = sRem.tasks.filter (condB now0 (addMinutes now0 REMINDER_WINDOW_MIN))) ∧
    (check_reminders sRem now0).1 = [tSoon] ∧
    (check_reminders (check_reminders sRem now0).2 now0).1 = [] ∧
    (∀ t ∈ (check_reminders sRem now0).1, ∀ now' : DateTime,
      ∀ u ∈ (check_reminders (check_reminders sRem now0).2 now').1, u.id ≠ t.id) :=
  ⟨(c5_due_soon_once sRem now0).1, by decide, by decide,
   (c5_due_soon_once sRem now0).2.2 (by decide)⟩

/-- C8: reminder evaluation tolerates malformed records — a task whose deadline
does not parse is never notified, the evaluation still processes the whole list
(same length), and the malformed task is carried through unchanged. -/
theorem c8_malformed_skipped (s : Store) (now : DateTime) :
    (∀ t ∈ (check_reminders s now).1, (parse_date t.deadline).isSome = true) ∧
    ((check_reminders s now).2.tasks.length = s.tasks.length) ∧
    (∀ t ∈ s.tasks, parse_date t.deadline = none →
      t ∈ (check_reminders s now).2.tasks) := by
  refine ⟨?_, ?_, ?_⟩
  · intro t ht
    rw [check_reminders_fst] at ht
    exact condB_parse _ _ _ (List.of_mem_filter ht)
  · rw [check_reminders_snd]
    simp
  · intro t ht hnone
    rw [check_reminders_snd]
    refine List.mem_map.mpr ⟨t, ht, ?_⟩
    exact markIf_of_not_cond _ _ _ (condB_of_parse_none _ _ _ hnone)

/-- Witness for C8: evaluating a store holding a task with deadline text "oops"
completes, notifies only parseable tasks, and keeps the malformed task as is. -/
theorem c8_witness :
    (∀ t ∈ (check_reminders sBad now0).1, (parse_date t.deadline).isSome = true) ∧
    (check_reminders sBad now0).2.tasks.length = sBad.tasks.length ∧
    tBad ∈ (check_reminders sBad now0).2.tasks :=
  ⟨(c8_malformed_skipped sBad now0).1,
   (c8_malformed_skipped sBad now0).2.1,
   (c8_malformed_skipped sBad now0).2.2 tBad (by decide) (by decide)⟩

end Scheduler
